import Mathlib

/-!
Shallow embedding of `src/api_pdf.py`: a FastAPI service that rasterizes PDF
pages, detects text blocks with OpenCV contours, runs Tesseract OCR on each
block, and writes one PNG and one text artifact per page.  External
collaborators (pdf2image, OpenCV's contour finder, Tesseract, the filesystem)
are modelled as oracles or by their documented pointwise semantics; the
repository's own logic (thresholding parameters, the size filter, ordering,
crop-and-join, artifact naming, the top-level exception handler and the HTTP
endpoint) is translated directly from the source.
-/

namespace ApiPdf

/-- A grayscale raster: rows of 8-bit intensities. -/
abbrev GrayImg := List (List Nat)

/-- An RGB raster: rows of (r, g, b) pixels. -/
abbrev Img := List (List (Nat × Nat × Nat))

/-- A contour as OpenCV returns it: a list of (x, y) points. -/
abbrev Contour := List (Nat × Nat)

/-- A block rectangle (x, y, w, h) as produced by cv2.boundingRect. -/
structure Rect where
  x : Nat
  y : Nat
  w : Nat
  h : Nat
deriving DecidableEq, Repr

/-- Pixel of a grayscale raster; out-of-bounds reads give 0. -/
def pixAt (m : GrayImg) (i j : Nat) : Nat := (m.getD i []).getD j 0

/-- Pixel of an RGB raster; out-of-bounds reads give black. -/
def pixAtRGB (img : Img) (i j : Nat) : Nat × Nat × Nat := (img.getD i []).getD j (0, 0, 0)

/-- OpenCV's RGB→gray conversion (cv2.cvtColor COLOR_RGB2GRAY), fixed-point:
(R·4899 + G·9617 + B·1868 + 2^13) >> 14. -/
def rgbToGray (p : Nat × Nat × Nat) : Nat :=
  (p.1 * 4899 + p.2.1 * 9617 + p.2.2 * 1868 + 8192) / 16384

/-- cv2.cvtColor(img_cv, cv2.COLOR_RGB2GRAY) applied pointwise. -/
def cvtGray (img : Img) : GrayImg := img.map (fun row => row.map rgbToGray)

/-- cv2.threshold(·, t, maxv, cv2.THRESH_BINARY_INV): a pixel above the cutoff
becomes 0, any other becomes maxv. -/
def thresholdInv (t maxv : Nat) (m : GrayImg) : GrayImg :=
  m.map (fun row => row.map (fun p => if t < p then 0 else maxv))

/-- Maximum of the source over the (2r+1)×(2r+1) window centred at (i, j);
out-of-bounds positions are clamped or read as 0 and never exceed the centre. -/
def nbhdMax (m : GrayImg) (r i j : Nat) : Nat :=
  ((List.range (2 * r + 1)).flatMap (fun di =>
    (List.range (2 * r + 1)).map (fun dj =>
      pixAt m (i + di - r) (j + dj - r)))).foldr max 0

/-- cv2.dilate with a square structuring element of radius r (the source uses
cv2.getStructuringElement(cv2.MORPH_RECT, (15, 15)), i.e. r = 7) and one
iteration: each output pixel is the window maximum. -/
def dilate (r : Nat) (m : GrayImg) : GrayImg :=
  (List.range m.length).map (fun i =>
    (List.range ((m.getD i []).length)).map (fun j => nbhdMax m r i j))

/-- cv2.boundingRect: the minimal upright rectangle containing the contour's
points, with inclusive width and height. -/
def boundingRect (cnt : Contour) : Rect :=
  match cnt with
  | [] => ⟨0, 0, 0, 0⟩
  | p :: ps =>
    let x0 := ps.foldl (fun a q => min a q.1) p.1
    let y0 := ps.foldl (fun a q => min a q.2) p.2
    let x1 := ps.foldl (fun a q => max a q.1) p.1
    let y1 := ps.foldl (fun a q => max a q.2) p.2
    ⟨x0, y0, x1 - x0 + 1, y1 - y0 + 1⟩

/-- The dilated binary mask that detectar_blocos hands to cv2.findContours:
grayscale, inverse-binary threshold at 180, dilation by the 15×15 kernel. -/
def detectMask (img : Img) : GrayImg :=
  dilate 7 (thresholdInv 180 255 (cvtGray img))

/-- The accumulation loop of detectar_blocos: bounding rectangle of each
contour, kept when w > 40 and h > 15, in contour order. -/
def collectBlocos : List Contour → List Rect
  | [] => []
  | cnt :: rest =>
    let r := boundingRect cnt
    if 40 < r.w ∧ 15 < r.h then r :: collectBlocos rest else collectBlocos rest

/-- detectar_blocos: build the mask, find external contours (an oracle for
cv2.findContours), filter bounding rectangles by size, and sort the kept
blocks top-to-bottom by their y coordinate.  Python's sorted with key b[1]
is a stable ascending sort; it is modelled by the stable insertionSort. -/
def detectar_blocos (findContours : GrayImg → List Contour) (img : Img) : List Rect :=
  (collectBlocos (findContours (detectMask img))).insertionSort (fun a b => a.y ≤ b.y)

/-- A raster every pixel of which is white (255, 255, 255). -/
def whiteImg (h w : Nat) : Img := List.replicate h (List.replicate w (255, 255, 255))

/-- Every pixel of the grayscale raster is 0 (in or out of bounds). -/
def allZero (m : GrayImg) : Prop := ∀ i j, pixAt m i j = 0

/-- PIL Image.crop((x, y, x + w, y + h)): the w×h region whose top-left corner
is (x, y); area beyond the source's bounds is filled with black. -/
def crop (img : Img) (r : Rect) : Img :=
  (List.range r.h).map (fun i =>
    (List.range r.w).map (fun j => pixAtRGB img (r.y + i) (r.x + j)))

/-- The fixed Tesseract configuration string of the source. -/
def ocrConfig : String := "--oem 3 --psm 4 -l por"

/-- Name of the page's PNG artifact. -/
def pngName (base : String) (i : Nat) : String := base ++ "_pagina_" ++ toString i ++ ".png"

/-- Name of the page's text artifact. -/
def txtName (base : String) (i : Nat) : String := base ++ "_pagina_" ++ toString i ++ ".txt"

/-- The message printed by the top-level exception handler. -/
def errMsg (base e : String) : String := "Erro ao processar o arquivo " ++ base ++ ": " ++ e

/-- The message printed on successful completion. -/
def doneMsg (base : String) : String :=
  "Processamento do arquivo " ++ base ++ " concluído com sucesso."

/-- The per-page progress message. -/
def progressMsg (i total : Nat) (base : String) : String :=
  "Processando página " ++ toString i ++ "/" ++ toString total ++
    " do arquivo " ++ base ++ "..."

/-- Observable actions of the pipeline, in program order: file writes, prints
to standard output, and OCR engine invocations. -/
inductive Event where
  | writePng (name : String) (img : Img)
  | writeTxt (name : String) (content : String)
  | logMsg (msg : String)
  | ocrCall (config : String)
deriving DecidableEq

/-- The external collaborators of processar_pdf_em_background, as oracles:
pdfinfo_from_path (page count or failure), convert_from_path for one page
(its list of images, or failure), cv2.findContours, and
pytesseract.image_to_string (which receives the crop and the config). -/
structure Env where
  pdfinfoPages : Except String Nat
  rasterize : Nat → Except String (List Img)
  findContours : GrayImg → List Contour
  ocr : Img → String → Except String String

/-- The per-block OCR loop of processar_pdf_em_background: crop the page image
to each rectangle in order, invoke the OCR oracle with the fixed config, and
collect each result stripped of surrounding whitespace (Python str.strip,
modelled by String.trim).  Returns the events, the collected strings, and the
first OCR failure if one occurred (which aborts the loop there). -/
def runBlocks (env : Env) (img : Img) : List Rect → List Event × List String × Option String
  | [] => ([], [], none)
  | r :: rs =>
    match env.ocr (crop img r) ocrConfig with
    | .error e => ([Event.ocrCall ocrConfig], [], some e)
    | .ok texto =>
      let rest := runBlocks env img rs
      (Event.ocrCall ocrConfig :: rest.1, texto.trim :: rest.2.1, rest.2.2)

/-- One iteration of the page loop: print progress, rasterize page i at
300 DPI, skip if no image came back, save the PNG, detect blocks, OCR them,
and write the page's text joined with a blank-line separator.  The second
component is the exception carried out of the iteration, if any. -/
def processPage (env : Env) (base : String) (i total : Nat) : List Event × Option String :=
  let progress := Event.logMsg (progressMsg i total base)
  match env.rasterize i with
  | .error e => ([progress], some e)
  | .ok [] => ([progress], none)
  | .ok (imagem :: _) =>
    let evPng := Event.writePng (pngName base i) imagem
    let blocos := detectar_blocos env.findContours imagem
    let res := runBlocks env imagem blocos
    match res.2.2 with
    | some e => (progress :: evPng :: res.1, some e)
    | none =>
      (progress :: evPng ::
        (res.1 ++ [Event.writeTxt (txtName base i)
          (String.intercalate "\n\n" res.2.1)]), none)

/-- The page loop from page i, k pages remaining (Python range(1, total+1)):
runs pages in order and stops at the first exception, which it propagates. -/
def runPagesAux (env : Env) (base : String) (total : Nat) : Nat → Nat → List Event × Option String
  | _, 0 => ([], none)
  | i, k + 1 =>
    let page := processPage env base i total
    match page.2 with
    | some e => (page.1, some e)
    | none =>
      let rest := runPagesAux env base total (i + 1) k
      (page.1 ++ rest.1, rest.2)

/-- processar_pdf_em_background: probe the page count, run the page loop, and
catch any exception once at the top, printing the error message with the PDF's
base name; on success print the completion message. -/
def processar_pdf_em_background (env : Env) (base : String) : List Event :=
  match env.pdfinfoPages with
  | .error e => [Event.logMsg (errMsg base e)]
  | .ok total =>
    let run := runPagesAux env base total 1 total
    match run.2 with
    | some e => run.1 ++ [Event.logMsg (errMsg base e)]
    | none => run.1 ++ [Event.logMsg (doneMsg base)]

/-- The events the page loop emitted before the top-level handler ran. -/
def runEvents (env : Env) (base : String) : List Event :=
  match env.pdfinfoPages with
  | .error _ => []
  | .ok total => (runPagesAux env base total 1 total).1

/-- The exception the top-level handler caught, if any. -/
def pipelineError (env : Env) (base : String) : Option String :=
  match env.pdfinfoPages with
  | .error e => some e
  | .ok total => (runPagesAux env base total 1 total).2

/-- Names of the PNG files written in an event trace, in order. -/
def pngWrites (evs : List Event) : List String :=
  evs.filterMap (fun ev => match ev with | Event.writePng n _ => some n | _ => none)

/-- Names of the text files written in an event trace, in order. -/
def txtWrites (evs : List Event) : List String :=
  evs.filterMap (fun ev => match ev with | Event.writeTxt n _ => some n | _ => none)

/-- Index of the last '.' in the list, if any. -/
def lastDotIdx : List Char → Option Nat
  | [] => none
  | c :: cs =>
    match lastDotIdx cs with
    | some i => some (i + 1)
    | none => if c = '.' then some 0 else none

/-- pathlib PurePath.stem on a bare file name: the name without its suffix,
where the suffix starts at the last dot, provided that dot is neither the
first nor the last character. -/
def stemList (cs : List Char) : List Char :=
  match lastDotIdx cs with
  | some i => if 0 < i ∧ i + 1 < cs.length then cs.take i else cs
  | none => cs

/-- Path(nome).stem for a plain file name. -/
def stem (s : String) : String := String.mk (stemList s.data)

/-- The configured input directory for PDFs (relative form). -/
def PASTA_PDFS : String := "arquivos_pdf"

/-- str(PASTA_PDFS / nome_arquivo). -/
def caminho (nome : String) : String := PASTA_PDFS ++ "/" ++ nome

/-- An HTTP response of the endpoint: status code and message body. -/
structure HTTPReply where
  status : Nat
  body : String
deriving DecidableEq

/-- What one call of the endpoint produces: the immediate response and the
background tasks it scheduled, each as (path argument, base-name argument)
for processar_pdf_em_background. -/
structure EndpointOutcome where
  reply : HTTPReply
  scheduled : List (String × String)
deriving DecidableEq

/-- The 404 detail message of the conversion endpoint. -/
def notFoundMsg (nome : String) : String := "O arquivo '" ++ nome ++ "' não foi encontrado."

/-- The 202 acknowledgment message of the conversion endpoint. -/
def acceptedMsg (nome : String) : String :=
  "O processamento do arquivo '" ++ nome ++
    "' foi iniciado. O resultado será salvo no servidor."

/-- POST /converter-pdf/(nome_arquivo): if the file is absent from the input
directory, raise 404 and schedule nothing; otherwise schedule
processar_pdf_em_background(str(caminho_pdf), caminho_pdf.stem) and return
202 immediately.  The filesystem is the oracle existsFile. -/
def converter_pdf_por_nome (existsFile : String → Bool) (nome_arquivo : String) :
    EndpointOutcome :=
  if existsFile nome_arquivo then
    { reply := { status := 202, body := acceptedMsg nome_arquivo },
      scheduled := [(caminho nome_arquivo, stem nome_arquivo)] }
  else
    { reply := { status := 404, body := notFoundMsg nome_arquivo }, scheduled := [] }


/-! Helper lemmas. -/

/-- Membership in the filtering loop of detectar_blocos. -/
theorem mem_collectBlocos (cnts : List Contour) (r : Rect) :
    r ∈ collectBlocos cnts ↔
      r ∈ cnts.map boundingRect ∧ (40 < r.w ∧ 15 < r.h) := by
  induction cnts with
  | nil => simp [collectBlocos]
  | cons c cs ih =>
    by_cases h : 40 < (boundingRect c).w ∧ 15 < (boundingRect c).h
    · simp only [collectBlocos, if_pos h, List.map_cons, List.mem_cons, ih]
      constructor
      · rintro (rfl | ⟨hm, hp⟩)
        · exact ⟨Or.inl rfl, h⟩
        · exact ⟨Or.inr hm, hp⟩
      · rintro ⟨rfl | hm, hp⟩
        · exact Or.inl rfl
        · exact Or.inr ⟨hm, hp⟩
    · simp only [collectBlocos, if_neg h, List.map_cons, List.mem_cons, ih]
      constructor
      · rintro ⟨hm, hp⟩
        exact ⟨Or.inr hm, hp⟩
      · rintro ⟨rfl | hm, hp⟩
        · exact absurd hp h
        · exact ⟨hm, hp⟩

/-- Membership in the result of detectar_blocos. -/
theorem mem_detectar_blocos (fc : GrayImg → List Contour) (img : Img) (r : Rect) :
    r ∈ detectar_blocos fc img ↔
      r ∈ (fc (detectMask img)).map boundingRect ∧ (40 < r.w ∧ 15 < r.h) := by
  unfold detectar_blocos
  rw [(List.perm_insertionSort _ _).mem_iff]
  exact mem_collectBlocos _ r

/-- A grid all of whose entries are 0 has every pixel read as 0. -/
theorem allZero_of_forall_mem (m : GrayImg) (h : ∀ row ∈ m, ∀ x ∈ row, x = 0) :
    allZero m := by
  intro i j
  unfold pixAt
  rw [List.getD_eq_getElem?_getD, List.getD_eq_getElem?_getD]
  cases hrow : m[i]? with
  | none => simp
  | some row =>
    obtain ⟨hi, hrow'⟩ := List.getElem?_eq_some.mp hrow
    have hr : row ∈ m := hrow' ▸ List.getElem_mem hi
    cases hx : row[j]? with
    | none => simp [hx]
    | some x =>
      obtain ⟨hj, hx'⟩ := List.getElem?_eq_some.mp hx
      have hxr : x ∈ row := hx' ▸ List.getElem_mem hj
      simp [hx, h row hr x hxr]

/-- foldr max over a list of zeros is zero. -/
theorem foldr_max_zero (l : List Nat) (h : ∀ x ∈ l, x = 0) : l.foldr max 0 = 0 := by
  induction l with
  | nil => rfl
  | cons a t ih =>
    simp only [List.foldr_cons]
    rw [h a (List.mem_cons_self a t), ih fun x hx => h x (List.mem_cons_of_mem a hx)]
    simp

/-- The window maximum over an all-zero grid is zero. -/
theorem nbhdMax_allZero (m : GrayImg) (r i j : Nat) (h : allZero m) :
    nbhdMax m r i j = 0 := by
  unfold nbhdMax
  apply foldr_max_zero
  intro x hx
  simp only [List.mem_flatMap, List.mem_map] at hx
  obtain ⟨di, _, dj, _, rfl⟩ := hx
  exact h _ _

/-- Dilation preserves the all-zero grid. -/
theorem allZero_dilate (r : Nat) (m : GrayImg) (h : allZero m) : allZero (dilate r m) := by
  apply allZero_of_forall_mem
  intro row hrow x hx
  unfold dilate at hrow
  simp only [List.mem_map] at hrow
  obtain ⟨i, _, rfl⟩ := hrow
  simp only [List.mem_map] at hx
  obtain ⟨j, _, rfl⟩ := hx
  exact nbhdMax_allZero m r i j h

/-- Thresholding the grayscale of the all-white raster yields the all-zero grid. -/
theorem allZero_threshold_white (h w : Nat) :
    allZero (thresholdInv 180 255 (cvtGray (whiteImg h w))) := by
  apply allZero_of_forall_mem
  intro row hrow x hx
  unfold thresholdInv cvtGray whiteImg at hrow
  simp only [List.map_replicate, List.mem_replicate] at hrow
  rw [hrow.2] at hx
  simp only [List.map_replicate, List.mem_replicate] at hx
  rw [hx.2]
  decide

/-- The detection mask of an all-white raster is all zero. -/
theorem allZero_detectMask_white (h w : Nat) : allZero (detectMask (whiteImg h w)) :=
  allZero_dilate 7 _ (allZero_threshold_white h w)

/-! Claim theorems. -/

/-- C1 counterexample: the contour with bounding rectangle (0, 0, 40, 20) has
width at least 40 and height at least 15, yet detectar_blocos does not keep it
(the source's filter is strict: w > 40 and h > 15). -/
theorem C1_strict_filter_counterexample :
    40 ≤ (boundingRect [(0, 0), (39, 19)]).w ∧
    15 ≤ (boundingRect [(0, 0), (39, 19)]).h ∧
    boundingRect [(0, 0), (39, 19)] ∈
      (((fun _ : GrayImg => [[(0, 0), (39, 19)]]) (detectMask ([] : Img))).map boundingRect) ∧
    boundingRect [(0, 0), (39, 19)] ∉
      detectar_blocos (fun _ => [[(0, 0), (39, 19)]]) ([] : Img) := by
  decide

/-- C1 (amended): detectar_blocos keeps exactly those contour bounding
rectangles whose width is strictly greater than 40 and whose height is
strictly greater than 15; rectangles of width at most 40 or height at most 15
are discarded. -/
theorem C1_filter_strictly_greater (fc : GrayImg → List Contour) (img : Img) (r : Rect) :
    r ∈ detectar_blocos fc img ↔
      r ∈ (fc (detectMask img)).map boundingRect ∧ (40 < r.w ∧ 15 < r.h) :=
  mem_detectar_blocos fc img r

/-- C2: the list returned by detectar_blocos is sorted in non-decreasing order
of the vertical (top, y) coordinate of each rectangle. -/
theorem C2_sorted_by_top (fc : GrayImg → List Contour) (img : Img) :
    List.Sorted (fun a b : Rect => a.y ≤ b.y) (detectar_blocos fc img) := by
  haveI : IsTotal Rect (fun a b : Rect => a.y ≤ b.y) := ⟨fun a b => Nat.le_total a.y b.y⟩
  haveI : IsTrans Rect (fun a b : Rect => a.y ≤ b.y) := ⟨fun _ _ _ => Nat.le_trans⟩
  exact List.sorted_insertionSort _ _

/-- C6: detectar_blocos returns the empty list whenever no contour's bounding
rectangle passes the size filter, and in particular on a uniformly white page
image, for any contour finder that returns no contour on an all-zero mask. -/
theorem C6_empty_result :
    (∀ (fc : GrayImg → List Contour) (img : Img),
      (∀ r ∈ (fc (detectMask img)).map boundingRect, ¬(40 < r.w ∧ 15 < r.h)) →
      detectar_blocos fc img = [])
    ∧ (∀ fc : GrayImg → List Contour,
      (∀ m, allZero m → fc m = []) →
      ∀ h w, detectar_blocos fc (whiteImg h w) = []) := by
  constructor
  · intro fc img hnone
    rw [List.eq_nil_iff_forall_not_mem]
    intro r hr
    rw [mem_detectar_blocos] at hr
    exact hnone r hr.1 hr.2
  · intro fc hfc h w
    unfold detectar_blocos
    rw [hfc (detectMask (whiteImg h w)) (allZero_detectMask_white h w)]
    rfl

/-- C6 witness: concrete instances of both conjuncts — a contour finder whose
single bounding rectangle fails the filter, and the empty contour finder on a
2×2 white page. -/
theorem C6_empty_result_witness :
    detectar_blocos (fun _ => [[(0, 0), (9, 9)]]) ([] : Img) = [] ∧
    detectar_blocos (fun _ => []) (whiteImg 2 2) = [] :=
  ⟨C6_empty_result.1 (fun _ => [[(0, 0), (9, 9)]]) [] (by decide),
   C6_empty_result.2 (fun _ => []) (fun _ _ => rfl) 2 2⟩

/-- When every OCR invocation succeeds, the per-block loop emits one OCR call
per block and collects the trimmed results in block order. -/
theorem runBlocks_ok (env : Env) (img : Img) (blocos : List Rect) (f : Rect → String)
    (hok : ∀ r ∈ blocos, env.ocr (crop img r) ocrConfig = .ok (f r)) :
    runBlocks env img blocos =
      (blocos.map (fun _ => Event.ocrCall ocrConfig),
        blocos.map (fun r => (f r).trim), none) := by
  induction blocos with
  | nil => rfl
  | cons r rs ih =>
    have hr := hok r (List.mem_cons_self r rs)
    have hrest := ih fun x hx => hok x (List.mem_cons_of_mem r hx)
    simp only [runBlocks, hr, hrest, List.map_cons]

/-- C3: for a page that rasterizes and whose every block OCRs successfully,
the page loop crops the image to each detected rectangle in list order, OCRs
each crop, trims each result, and writes as the page's text the trimmed
per-block strings joined with the blank-line separator, after saving the PNG. -/
theorem C3_page_text_joined (env : Env) (base : String) (i total : Nat) (img : Img)
    (rest : List Img) (f : Rect → String)
    (hras : env.rasterize i = .ok (img :: rest))
    (hocr : ∀ r ∈ detectar_blocos env.findContours img,
      env.ocr (crop img r) ocrConfig = .ok (f r)) :
    processPage env base i total =
      (Event.logMsg (progressMsg i total base) ::
        Event.writePng (pngName base i) img ::
        ((detectar_blocos env.findContours img).map (fun _ => Event.ocrCall ocrConfig) ++
          [Event.writeTxt (txtName base i)
            (String.intercalate "\n\n"
              ((detectar_blocos env.findContours img).map (fun r => (f r).trim)))]),
        none) := by
  unfold processPage
  rw [hras]
  simp only [runBlocks_ok env img _ f hocr]

deriving instance DecidableEq for Except

/-- A concrete environment: one page, rasterized to the empty raster, two
contours whose bounding rectangles pass the filter, and an OCR oracle that
answers by the crop's height. -/
def envC3 : Env :=
  { pdfinfoPages := .ok 1
    rasterize := fun _ => .ok [[]]
    findContours := fun _ => [[(0, 0), (40, 15)], [(0, 20), (40, 36)]]
    ocr := fun im _ => .ok (if im.length = 16 then " alfa " else " beta ") }

/-- The OCR answers of envC3 as a function of the block. -/
def fC3 : Rect → String := fun r => if r.h = 16 then " alfa " else " beta "

/-- C3 witness: the theorem applied to envC3, whose page has two blocks. -/
theorem C3_page_text_joined_witness :
    processPage envC3 "doc" 1 1 =
      (Event.logMsg (progressMsg 1 1 "doc") ::
        Event.writePng (pngName "doc" 1) [] ::
        ((detectar_blocos envC3.findContours []).map (fun _ => Event.ocrCall ocrConfig) ++
          [Event.writeTxt (txtName "doc" 1)
            (String.intercalate "\n\n"
              ((detectar_blocos envC3.findContours []).map (fun r => (fC3 r).trim)))]),
        none) :=
  C3_page_text_joined envC3 "doc" 1 1 [] [] fC3 rfl (by decide)

/-- C9: on a page that rasterizes but whose Block Detector returns no blocks,
the page loop still writes the page's text file, with the empty string as
content, right after saving the PNG, and raises no error. -/
theorem C9_empty_blocks_empty_text (env : Env) (base : String) (i total : Nat)
    (img : Img) (rest : List Img)
    (hras : env.rasterize i = .ok (img :: rest))
    (hblocos : detectar_blocos env.findContours img = []) :
    processPage env base i total =
      ([Event.logMsg (progressMsg i total base),
        Event.writePng (pngName base i) img,
        Event.writeTxt (txtName base i) ""], none) := by
  unfold processPage
  rw [hras]
  simp only [hblocos]
  rfl

/-- A concrete environment whose contour finder finds nothing. -/
def envC9 : Env :=
  { pdfinfoPages := .ok 1
    rasterize := fun _ => .ok [[]]
    findContours := fun _ => []
    ocr := fun _ _ => .ok "x" }

/-- C9 witness: the theorem applied to envC9. -/
theorem C9_empty_blocks_empty_text_witness :
    processPage envC9 "doc" 1 1 =
      ([Event.logMsg (progressMsg 1 1 "doc"),
        Event.writePng (pngName "doc" 1) [],
        Event.writeTxt (txtName "doc" 1) ""], none) :=
  C9_empty_blocks_empty_text envC9 "doc" 1 1 [] [] rfl (by decide)

/-- Every OCR-call event of the per-block loop carries the fixed config. -/
theorem ocrCall_runBlocks (env : Env) (img : Img) (blocos : List Rect) (cfg : String)
    (hmem : Event.ocrCall cfg ∈ (runBlocks env img blocos).1) : cfg = ocrConfig := by
  induction blocos with
  | nil => simp [runBlocks] at hmem
  | cons r rs ih =>
    rw [runBlocks] at hmem
    cases h : env.ocr (crop img r) ocrConfig with
    | error e =>
      rw [h] at hmem
      simp only [List.mem_singleton, Event.ocrCall.injEq] at hmem
      exact hmem
    | ok texto =>
      rw [h] at hmem
      simp only [List.mem_cons, Event.ocrCall.injEq] at hmem
      rcases hmem with hmem | hmem
      · exact hmem
      · exact ih hmem

/-- Every OCR-call event of one page iteration carries the fixed config. -/
theorem ocrCall_processPage (env : Env) (base : String) (i total : Nat) (cfg : String)
    (hmem : Event.ocrCall cfg ∈ (processPage env base i total).1) : cfg = ocrConfig := by
  rw [processPage] at hmem
  cases h : env.rasterize i with
  | error e =>
    rw [h] at hmem
    simp at hmem
  | ok imgs =>
    rw [h] at hmem
    cases imgs with
    | nil => simp at hmem
    | cons imagem restImgs =>
      simp only at hmem
      cases herr : (runBlocks env imagem (detectar_blocos env.findContours imagem)).2.2 with
      | some e =>
        rw [herr] at hmem
        simp only [List.mem_cons] at hmem
        rcases hmem with hmem | hmem | hmem
        · exact absurd hmem (by simp)
        · exact absurd hmem (by simp)
        · exact ocrCall_runBlocks env imagem _ cfg hmem
      | none =>
        rw [herr] at hmem
        simp only [List.mem_cons, List.mem_append, List.mem_singleton] at hmem
        rcases hmem with hmem | hmem | hmem | hmem
        · exact absurd hmem (by simp)
        · exact absurd hmem (by simp)
        · exact ocrCall_runBlocks env imagem _ cfg hmem
        · exact absurd hmem (by simp)

/-- Every OCR-call event of the page loop carries the fixed config. -/
theorem ocrCall_runPagesAux (env : Env) (base : String) (total : Nat) (cfg : String) :
    ∀ k i, Event.ocrCall cfg ∈ (runPagesAux env base total i k).1 → cfg = ocrConfig := by
  intro k
  induction k with
  | zero => intro i hmem; simp [runPagesAux] at hmem
  | succ k ih =>
    intro i hmem
    rw [runPagesAux] at hmem
    cases h : (processPage env base i total).2 with
    | some e =>
      rw [h] at hmem
      exact ocrCall_processPage env base i total cfg hmem
    | none =>
      rw [h] at hmem
      simp only [List.mem_append] at hmem
      rcases hmem with hmem | hmem
      · exact ocrCall_processPage env base i total cfg hmem
      · exact ih (i + 1) hmem

/-- C8: every OCR invocation made by the pipeline uses the one fixed
configuration string of the source, --oem 3 --psm 4 -l por (engine mode 3,
page-segmentation mode 4, Portuguese), identical across blocks and pages. -/
theorem C8_fixed_ocr_config (env : Env) (base : String) (cfg : String)
    (hmem : Event.ocrCall cfg ∈ processar_pdf_em_background env base) :
    cfg = "--oem 3 --psm 4 -l por" := by
  rw [processar_pdf_em_background] at hmem
  cases h : env.pdfinfoPages with
  | error e => rw [h] at hmem; simp at hmem
  | ok total =>
    rw [h] at hmem
    simp only at hmem
    cases herr : (runPagesAux env base total 1 total).2 with
    | some e =>
      rw [herr] at hmem
      simp only [List.mem_append, List.mem_singleton] at hmem
      rcases hmem with hmem | hmem
      · exact ocrCall_runPagesAux env base total cfg total 1 hmem
      · exact absurd hmem (by simp)
    | none =>
      rw [herr] at hmem
      simp only [List.mem_append, List.mem_singleton] at hmem
      rcases hmem with hmem | hmem
      · exact ocrCall_runPagesAux env base total cfg total 1 hmem
      · exact absurd hmem (by simp)

/-- C8 witness: in the concrete run of envC3 an OCR call occurs, and the
theorem pins its configuration to the fixed string. -/
theorem C8_fixed_ocr_config_witness : "--oem 3 --psm 4 -l por" = "--oem 3 --psm 4 -l por" :=
  C8_fixed_ocr_config envC3 "doc" "--oem 3 --psm 4 -l por" (by decide)

/-- Every event of the per-block loop is an OCR call. -/
theorem runBlocks_events_ocr (env : Env) (img : Img) (blocos : List Rect) :
    ∀ ev ∈ (runBlocks env img blocos).1, ev = Event.ocrCall ocrConfig := by
  induction blocos with
  | nil => intro ev hev; simp [runBlocks] at hev
  | cons r rs ih =>
    intro ev hev
    rw [runBlocks] at hev
    cases h : env.ocr (crop img r) ocrConfig with
    | error e =>
      rw [h] at hev
      simpa using hev
    | ok texto =>
      rw [h] at hev
      simp only [List.mem_cons] at hev
      rcases hev with rfl | hev
      · rfl
      · exact ih ev hev

/-- The per-block loop writes no PNG file. -/
theorem pngWrites_runBlocks (env : Env) (img : Img) (blocos : List Rect) :
    pngWrites (runBlocks env img blocos).1 = [] := by
  rw [pngWrites, List.filterMap_eq_nil_iff]
  intro ev hev
  rw [runBlocks_events_ocr env img blocos ev hev]

/-- The per-block loop writes no text file. -/
theorem txtWrites_runBlocks (env : Env) (img : Img) (blocos : List Rect) :
    txtWrites (runBlocks env img blocos).1 = [] := by
  rw [txtWrites, List.filterMap_eq_nil_iff]
  intro ev hev
  rw [runBlocks_events_ocr env img blocos ev hev]

/-- pngWrites and txtWrites ignore log events. -/
theorem pngWrites_cons_log (msg : String) (evs : List Event) :
    pngWrites (Event.logMsg msg :: evs) = pngWrites evs := rfl

/-- pngWrites records a PNG write's name. -/
theorem pngWrites_cons_png (n : String) (img : Img) (evs : List Event) :
    pngWrites (Event.writePng n img :: evs) = n :: pngWrites evs := rfl

/-- pngWrites ignores text writes. -/
theorem pngWrites_cons_txt (n c : String) (evs : List Event) :
    pngWrites (Event.writeTxt n c :: evs) = pngWrites evs := rfl

/-- pngWrites ignores OCR calls. -/
theorem pngWrites_cons_ocr (cfg : String) (evs : List Event) :
    pngWrites (Event.ocrCall cfg :: evs) = pngWrites evs := rfl

/-- pngWrites distributes over append. -/
theorem pngWrites_append (l1 l2 : List Event) :
    pngWrites (l1 ++ l2) = pngWrites l1 ++ pngWrites l2 :=
  List.filterMap_append l1 l2 _

/-- txtWrites ignores log events. -/
theorem txtWrites_cons_log (msg : String) (evs : List Event) :
    txtWrites (Event.logMsg msg :: evs) = txtWrites evs := rfl

/-- txtWrites ignores PNG writes. -/
theorem txtWrites_cons_png (n : String) (img : Img) (evs : List Event) :
    txtWrites (Event.writePng n img :: evs) = txtWrites evs := rfl

/-- txtWrites records a text write's name. -/
theorem txtWrites_cons_txt (n c : String) (evs : List Event) :
    txtWrites (Event.writeTxt n c :: evs) = n :: txtWrites evs := rfl

/-- txtWrites ignores OCR calls. -/
theorem txtWrites_cons_ocr (cfg : String) (evs : List Event) :
    txtWrites (Event.ocrCall cfg :: evs) = txtWrites evs := rfl

/-- txtWrites distributes over append. -/
theorem txtWrites_append (l1 l2 : List Event) :
    txtWrites (l1 ++ l2) = txtWrites l1 ++ txtWrites l2 :=
  List.filterMap_append l1 l2 _

/-- A page iteration that rasterizes to at least one image and raises no
exception writes exactly one PNG and one text file, with the page's names. -/
theorem processPage_ok_writes (env : Env) (base : String) (i total : Nat)
    (img : Img) (rest : List Img)
    (hras : env.rasterize i = .ok (img :: rest))
    (herr : (processPage env base i total).2 = none) :
    pngWrites (processPage env base i total).1 = [pngName base i] ∧
    txtWrites (processPage env base i total).1 = [txtName base i] := by
  rw [processPage] at herr ⊢
  rw [hras] at herr ⊢
  simp only at herr ⊢
  cases hrb : (runBlocks env img (detectar_blocos env.findContours img)).2.2 with
  | some e =>
    rw [hrb] at herr
    simp at herr
  | none =>
    simp only
    constructor
    · rw [pngWrites_cons_log, pngWrites_cons_png, pngWrites_append,
        pngWrites_runBlocks]
      rfl
    · rw [txtWrites_cons_log, txtWrites_cons_png, txtWrites_append,
        txtWrites_runBlocks]
      rfl

/-- If the page loop from page i over k pages finishes without an exception
and every one of those pages rasterizes to at least one image, it writes
exactly the k PNG names and the k text names of pages i, …, i+k-1, in order. -/
theorem runPagesAux_ok_writes (env : Env) (base : String) (total : Nat) :
    ∀ k i, (runPagesAux env base total i k).2 = none →
    (∀ j, i ≤ j → j < i + k → ∃ img rest, env.rasterize j = .ok (img :: rest)) →
    pngWrites (runPagesAux env base total i k).1 =
      (List.range' i k).map (fun j => pngName base j) ∧
    txtWrites (runPagesAux env base total i k).1 =
      (List.range' i k).map (fun j => txtName base j) := by
  intro k
  induction k with
  | zero => intro i _ _; exact ⟨rfl, rfl⟩
  | succ k ih =>
    intro i herr hras
    rw [runPagesAux] at herr ⊢
    simp only at herr ⊢
    cases hp : (processPage env base i total).2 with
    | some e =>
      rw [hp] at herr
      simp at herr
    | none =>
      rw [hp] at herr
      simp only at herr ⊢
      obtain ⟨img, rest, hri⟩ := hras i (le_refl i) (by omega)
      obtain ⟨hpng, htxt⟩ := processPage_ok_writes env base i total img rest hri hp
      have hras' : ∀ j, i + 1 ≤ j → j < i + 1 + k →
          ∃ img rest, env.rasterize j = .ok (img :: rest) := by
        intro j h1 h2
        exact hras j (by omega) (by omega)
      obtain ⟨ihp, iht⟩ := ih (i + 1) herr hras'
      rw [List.range'_succ]
      constructor
      · rw [pngWrites_append, hpng, ihp, List.map_cons]
        rfl
      · rw [txtWrites_append, htxt, iht, List.map_cons]
        rfl

/-- A one-page environment whose rasterizer returns no image for the page
(the defensive skip branch of the source). -/
def envC4 : Env :=
  { pdfinfoPages := .ok 1
    rasterize := fun _ => .ok []
    findContours := fun _ => []
    ocr := fun _ _ => .ok "" }

/-- C4 counterexample: a 1-page PDF whose single page rasterizes to an empty
image list; the run completes without raising an exception, yet zero PNG
files and zero text files are produced, not one of each. -/
theorem C4_skip_counterexample :
    envC4.pdfinfoPages = .ok 1 ∧
    pipelineError envC4 "doc" = none ∧
    pngWrites (processar_pdf_em_background envC4 "doc") = [] ∧
    txtWrites (processar_pdf_em_background envC4 "doc") = [] ∧
    (pngWrites (processar_pdf_em_background envC4 "doc")).length ≠ 1 ∧
    (txtWrites (processar_pdf_em_background envC4 "doc")).length ≠ 1 := by
  decide

/-- C4 (amended): for a PDF with N pages whose pipeline run completes without
raising an exception and in which every page's rasterization yields at least
one image, the run writes exactly N PNG files and exactly N text files, one
pair per page index 1..N, named base_pagina_i.png and base_pagina_i.txt; the
image-file count, text-file count and page count are all equal. -/
theorem C4_artifact_counts (env : Env) (base : String) (n : Nat)
    (hinfo : env.pdfinfoPages = .ok n)
    (hok : pipelineError env base = none)
    (hras : ∀ i, 1 ≤ i → i ≤ n → ∃ img rest, env.rasterize i = .ok (img :: rest)) :
    pngWrites (processar_pdf_em_background env base) =
      (List.range' 1 n).map (fun i => pngName base i) ∧
    txtWrites (processar_pdf_em_background env base) =
      (List.range' 1 n).map (fun i => txtName base i) ∧
    (pngWrites (processar_pdf_em_background env base)).length = n ∧
    (txtWrites (processar_pdf_em_background env base)).length = n := by
  have herr : (runPagesAux env base n 1 n).2 = none := by
    rw [pipelineError, hinfo] at hok
    simpa using hok
  have hras' : ∀ j, 1 ≤ j → j < 1 + n → ∃ img rest, env.rasterize j = .ok (img :: rest) := by
    intro j h1 h2
    exact hras j h1 (by omega)
  obtain ⟨hpng, htxt⟩ := runPagesAux_ok_writes env base n n 1 herr hras'
  rw [processar_pdf_em_background, hinfo]
  simp only
  rw [herr]
  simp only
  rw [pngWrites_append, txtWrites_append, hpng, htxt]
  have h1 : pngWrites [Event.logMsg (doneMsg base)] = [] := rfl
  have h2 : txtWrites [Event.logMsg (doneMsg base)] = [] := rfl
  rw [h1, h2, List.append_nil, List.append_nil]
  refine ⟨rfl, rfl, ?_, ?_⟩ <;> simp

/-- C4 witness: the amended theorem applied to envC9 (one page, rasterized,
no text blocks), whose run completes and writes exactly one pair. -/
theorem C4_artifact_counts_witness :
    pngWrites (processar_pdf_em_background envC9 "doc") =
      (List.range' 1 1).map (fun i => pngName "doc" i) ∧
    txtWrites (processar_pdf_em_background envC9 "doc") =
      (List.range' 1 1).map (fun i => txtName "doc" i) ∧
    (pngWrites (processar_pdf_em_background envC9 "doc")).length = 1 ∧
    (txtWrites (processar_pdf_em_background envC9 "doc")).length = 1 :=
  C4_artifact_counts envC9 "doc" 1 rfl (by decide)
    (fun i _ _ => ⟨[], [], rfl⟩)

/-- If the page loop from page i over k pages raises an exception, there is a
single failing page j: every earlier page of the window succeeded, page j's
iteration carries the exception, and the loop's events are exactly the events
of pages i..j-1 followed by the failing page's partial events — no later page
runs. -/
theorem runPagesAux_error_structure (env : Env) (base : String) (total : Nat) :
    ∀ k i e, (runPagesAux env base total i k).2 = some e →
    ∃ j, i ≤ j ∧ j < i + k ∧ (processPage env base j total).2 = some e ∧
      (∀ m, i ≤ m → m < j → (processPage env base m total).2 = none) ∧
      (runPagesAux env base total i k).1 =
        ((List.range' i (j - i)).map (fun m => (processPage env base m total).1)).flatten ++
          (processPage env base j total).1 := by
  intro k
  induction k with
  | zero => intro i e herr; simp [runPagesAux] at herr
  | succ k ih =>
    intro i e herr
    rw [runPagesAux] at herr ⊢
    simp only at herr ⊢
    cases hp : (processPage env base i total).2 with
    | some e0 =>
      rw [hp] at herr
      simp only [Option.some.injEq] at herr
      subst herr
      refine ⟨i, le_refl i, by omega, hp, by omega, ?_⟩
      have hii : i - i = 0 := by omega
      rw [hii]
      rfl
    | none =>
      rw [hp] at herr
      simp only at herr
      obtain ⟨j, hj1, hj2, hjerr, hprev, hevs⟩ := ih (i + 1) e herr
      refine ⟨j, by omega, by omega, hjerr, ?_, ?_⟩
      · intro m hm1 hm2
        by_cases hmi : m = i
        · rw [hmi]; exact hp
        · exact hprev m (by omega) hm2
      · rw [hevs]
        have hji : j - i = (j - (i + 1)) + 1 := by omega
        rw [hji, List.range'_succ, List.map_cons, List.flatten_cons, List.append_assoc]

/-- C5: when any exception is raised during the per-PDF loop, the top-level
handler catches it exactly once: the run's full trace is the loop's events
followed by one final log whose message embeds the PDF's base name and the
error message; no write beyond those already performed is added or removed;
and when the page count was known there is a single failing page j — pages
before j completed, page j carries the exception, and no page after j ran. -/
theorem C5_failure_semantics (env : Env) (base : String) (e : String)
    (hfail : pipelineError env base = some e) :
    processar_pdf_em_background env base =
      runEvents env base ++ [Event.logMsg (errMsg base e)] ∧
    (∃ a b, errMsg base e = a ++ (base ++ (b ++ e))) ∧
    pngWrites (processar_pdf_em_background env base) = pngWrites (runEvents env base) ∧
    txtWrites (processar_pdf_em_background env base) = txtWrites (runEvents env base) ∧
    (∀ total, env.pdfinfoPages = .ok total →
      ∃ j, 1 ≤ j ∧ j ≤ total ∧ (processPage env base j total).2 = some e ∧
        (∀ m, 1 ≤ m → m < j → (processPage env base m total).2 = none) ∧
        runEvents env base =
          ((List.range' 1 (j - 1)).map (fun m => (processPage env base m total).1)).flatten ++
            (processPage env base j total).1) := by
  have hmsg : ∃ a b, errMsg base e = a ++ (base ++ (b ++ e)) := by
    refine ⟨"Erro ao processar o arquivo ", ": ", ?_⟩
    rw [errMsg, String.append_assoc, String.append_assoc]
  cases hinfo : env.pdfinfoPages with
  | error e0 =>
    rw [pipelineError, hinfo] at hfail
    simp only [Option.some.injEq] at hfail
    subst hfail
    rw [processar_pdf_em_background, runEvents, hinfo]
    refine ⟨rfl, hmsg, rfl, rfl, ?_⟩
    intro total htotal
    exact absurd htotal (by simp)
  | ok total =>
    rw [pipelineError, hinfo] at hfail
    simp only at hfail
    rw [processar_pdf_em_background, runEvents, hinfo]
    simp only
    rw [hfail]
    refine ⟨rfl, hmsg, ?_, ?_, ?_⟩
    · rw [pngWrites_append]
      have h1 : pngWrites [Event.logMsg (errMsg base e)] = [] := rfl
      rw [h1, List.append_nil]
    · rw [txtWrites_append]
      have h1 : txtWrites [Event.logMsg (errMsg base e)] = [] := rfl
      rw [h1, List.append_nil]
    · intro total' htotal
      simp only [Except.ok.injEq] at htotal
      subst htotal
      obtain ⟨j, hj1, hj2, hjerr, hprev, hevs⟩ :=
        runPagesAux_error_structure env base total total 1 e hfail
      exact ⟨j, hj1, by omega, hjerr, hprev, hevs⟩

/-- A two-page environment whose OCR engine always fails: the run aborts on
page 1 with the exception "boom". -/
def envC5 : Env :=
  { pdfinfoPages := .ok 2
    rasterize := fun _ => .ok [[]]
    findContours := fun _ => [[(0, 0), (50, 16)]]
    ocr := fun _ _ => .error "boom" }

/-- C5 witness: the theorem applied to envC5, whose OCR failure on page 1 is
caught at the top level. -/
theorem C5_failure_semantics_witness :
    processar_pdf_em_background envC5 "doc" =
      runEvents envC5 "doc" ++ [Event.logMsg (errMsg "doc" "boom")] ∧
    (∃ a b, errMsg "doc" "boom" = a ++ ("doc" ++ (b ++ "boom"))) ∧
    pngWrites (processar_pdf_em_background envC5 "doc") = pngWrites (runEvents envC5 "doc") ∧
    txtWrites (processar_pdf_em_background envC5 "doc") = txtWrites (runEvents envC5 "doc") ∧
    (∀ total, envC5.pdfinfoPages = .ok total →
      ∃ j, 1 ≤ j ∧ j ≤ total ∧ (processPage envC5 "doc" j total).2 = some "boom" ∧
        (∀ m, 1 ≤ m → m < j → (processPage envC5 "doc" m total).2 = none) ∧
        runEvents envC5 "doc" =
          ((List.range' 1 (j - 1)).map (fun m => (processPage envC5 "doc" m total).1)).flatten ++
            (processPage envC5 "doc" j total).1) :=
  C5_failure_semantics envC5 "doc" "boom" (by decide)

/-- C7: for any file name, when the file is absent from the input directory
the endpoint answers 404 and schedules nothing; when it is present the
endpoint answers 202 with a message naming the file and schedules exactly one
background run of the Pipeline Driver (path and stem), the response being
computed without consulting the pipeline at all. -/
theorem C7_endpoint_behavior (existsFile : String → Bool) (nome : String) :
    (existsFile nome = false →
      (converter_pdf_por_nome existsFile nome).reply.status = 404 ∧
      (converter_pdf_por_nome existsFile nome).scheduled = []) ∧
    (existsFile nome = true →
      (converter_pdf_por_nome existsFile nome).reply.status = 202 ∧
      (∃ a b, (converter_pdf_por_nome existsFile nome).reply.body = a ++ (nome ++ b)) ∧
      (converter_pdf_por_nome existsFile nome).scheduled = [(caminho nome, stem nome)]) := by
  constructor
  · intro h
    rw [converter_pdf_por_nome]
    rw [if_neg (by rw [h]; exact Bool.false_ne_true)]
    exact ⟨rfl, rfl⟩
  · intro h
    rw [converter_pdf_por_nome, if_pos h]
    refine ⟨rfl, ⟨"O processamento do arquivo '",
      "' foi iniciado. O resultado será salvo no servidor.", ?_⟩, rfl⟩
    rw [acceptedMsg, String.append_assoc]

/-- C7 witness: the theorem applied to a directory holding exactly a.pdf, once
for the missing b.pdf and once for the present a.pdf. -/
theorem C7_endpoint_behavior_witness :
    ((converter_pdf_por_nome (fun s => s == "a.pdf") "b.pdf").reply.status = 404 ∧
      (converter_pdf_por_nome (fun s => s == "a.pdf") "b.pdf").scheduled = []) ∧
    ((converter_pdf_por_nome (fun s => s == "a.pdf") "a.pdf").reply.status = 202 ∧
      (∃ a b, (converter_pdf_por_nome (fun s => s == "a.pdf") "a.pdf").reply.body =
        a ++ ("a.pdf" ++ b)) ∧
      (converter_pdf_por_nome (fun s => s == "a.pdf") "a.pdf").scheduled =
        [(caminho "a.pdf", stem "a.pdf")]) :=
  ⟨(C7_endpoint_behavior (fun s => s == "a.pdf") "b.pdf").1 (by decide),
    (C7_endpoint_behavior (fun s => s == "a.pdf") "a.pdf").2 (by decide)⟩

/-- A list without a dot has no last-dot index. -/
theorem lastDotIdx_eq_none (cs : List Char) (h : '.' ∉ cs) : lastDotIdx cs = none := by
  induction cs with
  | nil => rfl
  | cons c cs ih =>
    rw [lastDotIdx, ih (fun hm => h (List.mem_cons_of_mem c hm))]
    simp only
    rw [if_neg]
    intro hc
    exact h (hc ▸ List.mem_cons_self c cs)

/-- The last dot of a ++ b, when b has one, is b's last dot shifted by a. -/
theorem lastDotIdx_append_some (a b : List Char) (i : Nat) (h : lastDotIdx b = some i) :
    lastDotIdx (a ++ b) = some (a.length + i) := by
  induction a with
  | nil => simpa using h
  | cons c a ih =>
    rw [List.cons_append, lastDotIdx, ih]
    simp only [Option.some.injEq, List.length_cons]
    omega

/-- pathlib stem of name.extension is name, when the name part is nonempty and
the extension is nonempty and dot-free. -/
theorem stemList_extension (s e : List Char) (hs : s ≠ []) (he : e ≠ []) (hd : '.' ∉ e) :
    stemList (s ++ '.' :: e) = s := by
  have h1 : lastDotIdx ('.' :: e) = some 0 := by
    rw [lastDotIdx, lastDotIdx_eq_none e hd]
    simp
  have h2 : lastDotIdx (s ++ '.' :: e) = some (s.length + 0) :=
    lastDotIdx_append_some s _ 0 h1
  rw [stemList, h2]
  simp only [Nat.add_zero]
  rw [if_pos, List.take_left]
  constructor
  · exact List.length_pos.mpr hs
  · rw [List.length_append, List.length_cons]
    have := List.length_pos.mpr he
    omega

/-- C10: the base name handed to the scheduled pipeline is the input file
name's stem (final extension removed), and for any two file names built from
the same stem with different dot-free extensions, every page artifact name
(PNG and text) coincides, so their outputs overwrite each other. -/
theorem C10_stem_collision (s e1 e2 : List Char) (existsFile : String → Bool)
    (nome : String) (hs : s ≠ []) (h1 : e1 ≠ []) (h2 : e2 ≠ [])
    (hd1 : '.' ∉ e1) (hd2 : '.' ∉ e2) (hex : existsFile nome = true) :
    (converter_pdf_por_nome existsFile nome).scheduled = [(caminho nome, stem nome)] ∧
    stem (String.mk (s ++ '.' :: e1)) = stem (String.mk (s ++ '.' :: e2)) ∧
    ∀ i, pngName (stem (String.mk (s ++ '.' :: e1))) i =
           pngName (stem (String.mk (s ++ '.' :: e2))) i ∧
         txtName (stem (String.mk (s ++ '.' :: e1))) i =
           txtName (stem (String.mk (s ++ '.' :: e2))) i := by
  have hst1 : stem (String.mk (s ++ '.' :: e1)) = String.mk s := by
    rw [stem]
    rw [show (String.mk (s ++ '.' :: e1)).data = s ++ '.' :: e1 from rfl]
    rw [stemList_extension s e1 hs h1 hd1]
  have hst2 : stem (String.mk (s ++ '.' :: e2)) = String.mk s := by
    rw [stem]
    rw [show (String.mk (s ++ '.' :: e2)).data = s ++ '.' :: e2 from rfl]
    rw [stemList_extension s e2 hs h2 hd2]
  refine ⟨?_, ?_, ?_⟩
  · rw [converter_pdf_por_nome, if_pos hex]
  · rw [hst1, hst2]
  · intro i
    rw [hst1, hst2]
    exact ⟨rfl, rfl⟩

/-- C10 witness: doc.pdf and doc.txt collide on every page artifact name. -/
theorem C10_stem_collision_witness :
    (converter_pdf_por_nome (fun _ => true) "doc.pdf").scheduled =
      [(caminho "doc.pdf", stem "doc.pdf")] ∧
    stem (String.mk ("doc".data ++ '.' :: "pdf".data)) =
      stem (String.mk ("doc".data ++ '.' :: "txt".data)) ∧
    ∀ i, pngName (stem (String.mk ("doc".data ++ '.' :: "pdf".data))) i =
           pngName (stem (String.mk ("doc".data ++ '.' :: "txt".data))) i ∧
         txtName (stem (String.mk ("doc".data ++ '.' :: "pdf".data))) i =
           txtName (stem (String.mk ("doc".data ++ '.' :: "txt".data))) i :=
  C10_stem_collision "doc".data "pdf".data "txt".data (fun _ => true) "doc.pdf"
    (by decide) (by decide) (by decide) (by decide) (by decide) rfl
